import Mathlib

/-!
Shallow embedding of the NiftyNavigator stock-advisory bot
(`src/bot.py`, `src/monitor.py`, `src/storage/db.py`).

Modelling conventions:
* Python `float` prices/percentages are modelled by `ℚ` (the claims under
  scrutiny only involve exact decimal values and order comparisons).
* The positions JSON file is modelled by `Option FileContent`: `none` is an
  absent file; `FileContent.wellFormed ps` is a file whose text is a valid
  JSON array denoting `ps` (what `json.dump` of a position list produces);
  `FileContent.malformed` is a present file whose text `json.load` rejects.
  A Python exception escaping a storage function is `Except.error ()`.
* `datetime.utcnow()` is modelled by an explicit `UTCTime` argument and
  `datetime.isoformat` by `isoformat` below.
* Strings are processed as `List Char`; Python's `re` semantics for the two
  concrete patterns in the source are compiled to deterministic matchers
  (the character classes adjacent to each greedy quantifier are disjoint
  from what follows it, so greedy maximal munch needs no backtracking,
  except for the optional fractional group, which is modelled exactly).
  `\s`, `\d` are modelled at their ASCII meaning.
* `str.splitlines` is modelled with its full boundary set (`\n`, `\r`,
  `\v`, `\f`, `\x1c`–`\x1e`, `\x85`, U+2028/U+2029), `\r\n` coalesced
  into one break and no empty final line after a terminal boundary;
  `str.strip` at its ASCII meaning.
-/

/-! ## Character classes (Python `re` classes, ASCII fragment) -/

/-- Python `\s` (ASCII fragment): space, tab, newline, carriage return,
vertical tab, form feed. -/
def isPySpace (c : Char) : Bool :=
  c = ' ' || c = '\t' || c = '\n' || c = '\r' || c = '\x0b' || c = '\x0c'

/-- The class `[\d,]` of the amount group in `parse_input`. -/
def isDigitOrComma (c : Char) : Bool :=
  c.isDigit || c = ','

/-- Greedy maximal munch of a character class: longest prefix whose
characters satisfy `p`, paired with the remainder. -/
def takeClass (p : Char → Bool) : List Char → List Char × List Char
  | [] => ([], [])
  | c :: cs =>
    if p c then
      ((c :: (takeClass p cs).1), (takeClass p cs).2)
    else
      ([], c :: cs)

/-- The head of the list, if any, falsifies `p` (the shape of the
remainder after a maximal munch). -/
def headNot (p : Char → Bool) : List Char → Prop
  | [] => True
  | c :: _ => p c = false

/-- Numeric value of a digit character. -/
def digitVal (c : Char) : Nat := c.toNat - 48

/-- Value of a (nonempty) decimal digit string, as computed by Python
`int` on a string of digits. -/
def natOfDigits (l : List Char) : Nat :=
  l.foldl (fun a c => 10 * a + digitVal c) 0

/-! ## `parse_input` (src/bot.py): pattern `₹\s*([\d,]+)\s*@\s*(\d+(?:\.\d+)?)%` -/

/-- The capture groups of a successful match of the amount pattern:
group 1 (`[\d,]+`) and group 2 split into its integer digits and optional
fractional digits. -/
structure RawMatch where
  amountGroup : List Char
  pctInt : List Char
  pctFrac : Option (List Char)
  deriving DecidableEq, Repr

/-- Attempt to match the pattern `₹\s*([\d,]+)\s*@\s*(\d+(?:\.\d+)?)%`
anchored at the head of the character list (one candidate position of
`re.search`). -/
def matchAmountAt (cs : List Char) : Option RawMatch :=
  match cs with
  | [] => none
  | c :: r0 =>
    if c = '₹' then
      let r1 := (takeClass isPySpace r0).2
      let g1 := (takeClass isDigitOrComma r1).1
      let r2 := (takeClass isDigitOrComma r1).2
      if g1 = [] then none
      else
        match (takeClass isPySpace r2).2 with
        | '@' :: r4 =>
          let r5 := (takeClass isPySpace r4).2
          let d1 := (takeClass Char.isDigit r5).1
          let r6 := (takeClass Char.isDigit r5).2
          if d1 = [] then none
          else
            match r6 with
            | '%' :: _ => some ⟨g1, d1, none⟩
            | '.' :: r7 =>
              let d2 := (takeClass Char.isDigit r7).1
              let r8 := (takeClass Char.isDigit r7).2
              if d2 = [] then none
              else
                match r8 with
                | '%' :: _ => some ⟨g1, d1, some d2⟩
                | _ => none
            | _ => none
        | _ => none
    else none

/-- `re.search` for the amount pattern: try every start position, left to
right, returning the leftmost match. -/
def searchAmount : List Char → Option RawMatch
  | [] => none
  | c :: cs =>
    match matchAmountAt (c :: cs) with
    | some m => some m
    | none => searchAmount cs

/-- The raw text of group 2 reassembled from its integer and optional
fractional digits. -/
def fracPart : Option (List Char) → List Char
  | none => []
  | some f => '.' :: f

/-- Outcome of `parse_input`: the Python function returns `(None, None)`
(`noMatch`), returns a numeric pair (`ok`), or raises `ValueError`
(`error`, from `int("")` when the matched group is commas only). -/
inductive ParseOut where
  | noMatch
  | error
  | ok (amount : Nat) (percent : ℚ)
  deriving DecidableEq, Repr

/-- Numeric value of group 2 (`float(match.group(2))`), exact because the
group is a decimal literal. -/
def pctValue (pint : List Char) (pfrac : Option (List Char)) : ℚ :=
  (natOfDigits pint : ℚ) +
    match pfrac with
    | none => 0
    | some f => (natOfDigits f : ℚ) / (10 : ℚ) ^ f.length

/-- `parse_input` (src/bot.py lines 66–73): search for the pattern, strip
commas from group 1 and convert with `int`, convert group 2 with `float`. -/
def parse_input (text : String) : ParseOut :=
  match searchAmount text.data with
  | none => .noMatch
  | some m =>
    let ds := m.amountGroup.filter (fun c => c ≠ ',')
    if ds = [] then .error
    else .ok (natOfDigits ds) (pctValue m.pctInt m.pctFrac)

/-! ## Position store (src/storage/db.py, src/bot.py storage helpers) -/

/-- A stored buy position (`{symbol, entry_price, timestamp}`). -/
structure Position where
  symbol : String
  entry_price : ℚ
  timestamp : String
  deriving DecidableEq, Repr

/-- Contents of the positions file when it exists: either text that
`json.load` decodes to a position list (the only thing `json.dump` ever
writes), or text that `json.load` rejects. -/
inductive FileContent where
  | wellFormed (positions : List Position)
  | malformed
  deriving DecidableEq, Repr

/-- `load_positions`: missing file yields `[]`; otherwise `json.load` is
applied with no exception handler, so undecodable text raises. -/
def load_positions (s : Option FileContent) : Except Unit (List Position) :=
  match s with
  | none => .ok []
  | some (.wellFormed ps) => .ok ps
  | some .malformed => .error ()

/-- `save_positions`: whole-file overwrite with the JSON dump of the list. -/
def save_positions (ps : List Position) : Option FileContent :=
  some (.wellFormed ps)

/-! ### UTC timestamps (`datetime.utcnow().isoformat()`) -/

/-- A UTC wall-clock instant as `datetime` carries it. -/
structure UTCTime where
  year : Nat
  month : Nat
  day : Nat
  hour : Nat
  minute : Nat
  second : Nat
  microsecond : Nat
  deriving DecidableEq, Repr

/-- The field ranges `datetime` enforces at construction. -/
def UTCTime.Valid (t : UTCTime) : Prop :=
  1 ≤ t.year ∧ t.year ≤ 9999 ∧ 1 ≤ t.month ∧ t.month ≤ 12 ∧
  1 ≤ t.day ∧ t.day ≤ 31 ∧ t.hour ≤ 23 ∧ t.minute ≤ 59 ∧
  t.second ≤ 59 ∧ t.microsecond ≤ 999999

/-- The digit character for `n % 10`. -/
def digitChar (n : Nat) : Char := Char.ofNat (48 + n % 10)

/-- Zero-padded two-digit rendering (`%02d` on the `datetime` field range). -/
def pad2 (n : Nat) : List Char := [digitChar (n / 10), digitChar n]

/-- Zero-padded four-digit rendering (`%04d` on the `datetime` year range). -/
def pad4 (n : Nat) : List Char :=
  [digitChar (n / 1000), digitChar (n / 100), digitChar (n / 10), digitChar n]

/-- Zero-padded six-digit rendering (`%06d` on the microsecond range). -/
def pad6 (n : Nat) : List Char :=
  [digitChar (n / 100000), digitChar (n / 10000), digitChar (n / 1000),
   digitChar (n / 100), digitChar (n / 10), digitChar n]

/-- `datetime.isoformat()` for a UTC naive datetime:
`YYYY-MM-DDTHH:MM:SS` with `.ffffff` appended exactly when the
microsecond field is nonzero. -/
def isoformat (t : UTCTime) : String :=
  String.mk
    (pad4 t.year ++ '-' :: pad2 t.month ++ '-' :: pad2 t.day ++
     'T' :: pad2 t.hour ++ ':' :: pad2 t.minute ++ ':' :: pad2 t.second ++
     (if t.microsecond = 0 then [] else '.' :: pad6 t.microsecond))

/-- Consume exactly `n` decimal digits. -/
def checkDigits : Nat → List Char → Option (List Char)
  | 0, rest => some rest
  | _ + 1, [] => none
  | n + 1, c :: rest => if c.isDigit then checkDigits n rest else none

/-- Consume one expected character. -/
def expectChar (c : Char) : List Char → Option (List Char)
  | [] => none
  | x :: rest => if x = c then some rest else none

/-- Syntactic well-formedness of an ISO-8601 basic timestamp
`YYYY-MM-DDTHH:MM:SS[.ffffff]`. -/
def isValidISO8601 (s : String) : Bool :=
  (do
    let r ← checkDigits 4 s.data
    let r ← expectChar '-' r
    let r ← checkDigits 2 r
    let r ← expectChar '-' r
    let r ← checkDigits 2 r
    let r ← expectChar 'T' r
    let r ← checkDigits 2 r
    let r ← expectChar ':' r
    let r ← checkDigits 2 r
    let r ← expectChar ':' r
    let r ← checkDigits 2 r
    match r with
    | [] => some ()
    | '.' :: r2 => do
      let r3 ← checkDigits 6 r2
      if r3.isEmpty then some () else none
    | _ => none).isSome

/-- `add_position`: load, append a record stamped with the current UTC
time, save.  The current time is passed explicitly; an exception from
`load_positions` propagates. -/
def add_position (symbol : String) (price : ℚ) (now : UTCTime)
    (s : Option FileContent) : Except Unit (Option FileContent) :=
  match load_positions s with
  | .error e => .error e
  | .ok positions =>
    .ok (save_positions
      (positions ++ [{ symbol := symbol, entry_price := price,
                       timestamp := isoformat now }]))

/-! ## Monitor (src/monitor.py) -/

/-- `UP_THRESHOLD` (src/monitor.py line 19). -/
def UP_THRESHOLD : ℚ := 3.0

/-- `DOWN_THRESHOLD` (src/monitor.py line 20). -/
def DOWN_THRESHOLD : ℚ := -2.0

/-- Percentage change from entry, `((current - entry) / entry) * 100`
(src/monitor.py line 58).  Python raises `ZeroDivisionError` for
`entry = 0`; claims about the classification are stated for `entry ≠ 0`. -/
def changePct (entry current : ℚ) : ℚ :=
  (current - entry) / entry * 100

/-- The two alert directions produced by `monitor_loop`. -/
inductive AlertKind where
  | up
  | down
  deriving DecidableEq, Repr

/-- The alert classification of one position in `monitor_loop`
(src/monitor.py lines 61–67): `if change >= UP_THRESHOLD … elif change <=
DOWN_THRESHOLD … else` no alert. -/
def classifyChange (entry current : ℚ) : Option AlertKind :=
  if changePct entry current ≥ UP_THRESHOLD then some .up
  else if changePct entry current ≤ DOWN_THRESHOLD then some .down
  else none

/-- Process-and-file state of the monitor bot: the `.chatid` file, the
`.monitor_active` marker file, the positions file, and the number of
`monitor_loop` tasks that have been launched and not terminated (a loop
task only terminates by waking with the marker file absent). -/
structure MonitorState where
  chatId : Option String
  markerPresent : Bool
  store : Option FileContent
  activeLoops : Nat
  deriving DecidableEq, Repr

/-- `start_monitor` (src/monitor.py lines 81–89): write the sender's chat
id, clear the positions file to `[]`, touch the marker file, and launch a
new `monitor_loop` task unconditionally (`asyncio.create_task` is not
guarded by any already-running check). -/
def start_monitor (chat : String) (s : MonitorState) : MonitorState :=
  { chatId := some chat
    markerPresent := true
    store := some (.wellFormed [])
    activeLoops := s.activeLoops + 1 }

/-- `stop_monitor` (src/monitor.py lines 92–95): remove the marker file if
it exists; nothing else is touched. -/
def stop_monitor (s : MonitorState) : MonitorState :=
  if s.markerPresent then { s with markerPresent := false } else s

/-! ## Message handling (src/bot.py `handle_message`) -/

/-- Python `str.strip()` (ASCII whitespace fragment): drop leading and
trailing whitespace. -/
def pyStrip (cs : List Char) : List Char :=
  ((cs.dropWhile isPySpace).reverse.dropWhile isPySpace).reverse

/-- A character of the class `[A-Za-z\.]` of the buy pattern. -/
def isSymbolChar (c : Char) : Bool := c.isAlpha || c = '.'

/-- `re.match(r"^I buy\s+[A-Za-z\.]+$", text, re.IGNORECASE)` as a
recognizer: literal `I buy` (letters case-insensitive), one or more
whitespace characters, then one or more letters/dots to the end. -/
def isBuyText (cs : List Char) : Bool :=
  match cs with
  | c1 :: c2 :: c3 :: c4 :: c5 :: rest =>
    c1.toLower = 'i' && c2 = ' ' && c3.toLower = 'b' && c4.toLower = 'u' &&
    c5.toLower = 'y' &&
    (let sp := (takeClass isPySpace rest).1
     let r := (takeClass isPySpace rest).2
     !sp.isEmpty && !r.isEmpty && r.all isSymbolChar)
  | _ => false

/-- The reply sent by the parse phase of `handle_message`: the
parse-error text, or the numeric acknowledgement that precedes the advice
flow. -/
inductive BotReply where
  | parseErrorReply
  | ackReply (amount : Nat) (percent : ℚ)
  deriving DecidableEq, Repr

/-- The routing-and-parsing prefix of `handle_message` (src/bot.py lines
139–151): strip the text, return silently on an `I buy` line, reply with
the parse-error message when `parse_input` finds no match, otherwise
acknowledge the parsed numbers.  `.error ()` is the uncaught `ValueError`
escaping from `parse_input`. -/
def handle_message_reply (text : String) : Except Unit (Option BotReply) :=
  let t := pyStrip text.data
  if isBuyText t then .ok none
  else
    match parse_input (String.mk t) with
    | .noMatch => .ok (some .parseErrorReply)
    | .error => .error ()
    | .ok a p => .ok (some (.ackReply a p))

/-! ## Advice flow formatting (src/bot.py `handle_message`, lines 163–167) -/

/-- The full set of line boundaries of Python `str.splitlines`:
`\n`, `\r`, `\v`, `\f`, the file/group/record separators `\x1c`–`\x1e`,
NEL `\x85`, and the Unicode line/paragraph separators U+2028/U+2029
(`\r\n` is treated as a single break by `pySplitlines` below). -/
def isLineBreak (c : Char) : Bool :=
  c = '\n' || c = '\r' || c = '\x0b' || c = '\x0c' ||
  c = '\x1c' || c = '\x1d' || c = '\x1e' || c = '\x85' ||
  c = '\u2028' || c = '\u2029'

/-- Python `str.splitlines()`: split at every line boundary, coalescing
`\r\n` into one break, with no empty final line after a terminal
boundary (`"".splitlines() = []`, `"a\n".splitlines() = ["a"]`). -/
def pySplitlines : List Char → List (List Char)
  | [] => []
  | c :: cs =>
    if c = '\r' then
      match cs with
      | '\n' :: cs' => [] :: pySplitlines cs'
      | [] => [[]]
      | d :: cs' => [] :: pySplitlines (d :: cs')
    else if isLineBreak c then [] :: pySplitlines cs
    else
      match pySplitlines cs with
      | [] => [[c]]
      | l :: ls => (c :: l) :: ls

/-- Decimal digit rendering, structurally recursive on a fuel bound (the
fuel `n + 1` always suffices since the value shrinks by a factor of ten
each step). -/
def toDigitsAux : Nat → Nat → List Char
  | 0, _ => []
  | fuel + 1, n =>
    if n < 10 then [digitChar n]
    else toDigitsAux fuel (n / 10) ++ [digitChar n]

/-- Decimal rendering of a natural number (the digits of `f"{i+1}"`). -/
def toDigitsList (n : Nat) : List Char := toDigitsAux (n + 1) n

/-- `[l.strip() for l in picks.splitlines() if l.strip()]`: the stripped
non-empty lines of the model response. -/
def adviceLines (picks : String) : List (List Char) :=
  ((pySplitlines picks.data).map pyStrip).filter (fun l => l ≠ [])

/-- `ln.split("–")[0].strip()`: the text before the first en dash
(U+2013) of a line, stripped.  The separator in the source is the en
dash, not the ASCII hyphen. -/
def firstField (cs : List Char) : List Char :=
  pyStrip (cs.takeWhile (fun c => c ≠ '–'))

/-- `lines[0].split("–")[0].strip()`: the top pick extracted from the
first non-empty line (`none` when there is no such line, where Python
would raise `IndexError`). -/
def top_pick (picks : String) : Option String :=
  ((adviceLines picks).head?).map (fun l => String.mk (firstField l))

/-- Python `sep.join(xs)`. -/
def joinWith (sep : List Char) : List (List Char) → List Char
  | [] => []
  | [l] => l
  | l :: ls => l ++ (sep ++ joinWith sep ls)

/-- `", ".join(ln.split("–")[0].strip() for ln in lines)`. -/
def advice_symbols (picks : String) : String :=
  String.mk (joinWith [',', ' '] ((adviceLines picks).map firstField))

/-- `"\n".join(f"{i+1}. {lines[i]}" for i in range(len(lines)))`: the
numbered listing sent to the user. -/
def numbered_listing (picks : String) : String :=
  String.mk (joinWith ['\n']
    (((adviceLines picks).enum).map
      (fun p => toDigitsList (p.1 + 1) ++ '.' :: ' ' :: p.2)))

/-- An en-dash-separated model-response line, decomposed at its first en
dash: everything before the first `–` (which may contain spaces) followed
by the en dash and the remainder of the line (which may contain further
en dashes). -/
def dashLine (sr : List Char × List Char) : List Char :=
  sr.1 ++ '–' :: sr.2

/-- A character on which the ASCII models of `str.strip` and
`str.splitlines` agree exactly with Python: printable ASCII, tab, or the
en dash.  (No line boundary and no non-ASCII whitespace is in this
set.) -/
def CleanChar (c : Char) : Bool :=
  (32 ≤ c.toNat && c.toNat ≤ 126) || c = '\t' || c = '–'

/-- A well-shaped decomposition of a response line at its first en dash:
the part before the dash is nonempty, en-dash-free `CleanChar` text not
starting with whitespace (it may contain and end with spaces — stripping
is part of the extraction); the part after the dash is nonempty
`CleanChar` text not ending with whitespace (it may contain further en
dashes and start with spaces). -/
def CleanItem (sr : List Char × List Char) : Prop :=
  sr.1 ≠ [] ∧ (∀ c ∈ sr.1, CleanChar c = true ∧ c ≠ '–') ∧
  isPySpace (sr.1.headD 'x') = false ∧
  sr.2 ≠ [] ∧ (∀ c ∈ sr.2, CleanChar c = true) ∧
  isPySpace (sr.2.getLastD 'x') = false

instance (sr : List Char × List Char) : Decidable (CleanItem sr) := by
  unfold CleanItem
  exact inferInstance

/-! ## Quick sanity examples (concrete evaluations of the embedding) -/

example : parse_input "₹20,000 @ 3.5%" = .ok 20000 (pctValue ['3'] (some ['5'])) := rfl

example : pctValue ['3'] (some ['5']) = 7 / 2 := by
  have h3 : natOfDigits ['3'] = 3 := rfl
  have h5 : natOfDigits ['5'] = 5 := rfl
  norm_num [pctValue, h3, h5]

example : parse_input "hello" = .noMatch := by decide

example : parse_input "₹abc @ 3%" = .noMatch := by decide

example : parse_input "₹, @ 1%" = .error := by decide

example : isoformat ⟨2026, 10, 12, 3, 4, 5, 0⟩ = "2026-10-12T03:04:05" := by decide

example : isValidISO8601 "2026-10-12T03:04:05" = true := by decide

example : isBuyText "I buy TCS".data = true := by decide

example : isBuyText "i BUY reliance.ns".data = true := by decide

example : isBuyText "hello".data = false := by decide

example : top_pick "TCS – strong\nINFY – stable" = some "TCS" := by decide

example : top_pick "TCS - strong\nINFY - stable" = some "TCS - strong" := by decide

example : numbered_listing "A – x\n\nB – y" = "1. A – x\n2. B – y" := by decide

example : advice_symbols "A – x\nB – y" = "A, B" := by decide

/-! ## Lemmas about the pattern matcher -/

theorem takeClass_cons_neg {p : Char → Bool} {c : Char} (h : p c = false)
    (cs : List Char) : takeClass p (c :: cs) = ([], c :: cs) := by
  simp [takeClass, h]

theorem takeClass_all_append {p : Char → Bool} {xs : List Char}
    (h : ∀ c ∈ xs, p c = true) (rest : List Char) :
    takeClass p (xs ++ rest) =
      (xs ++ (takeClass p rest).1, (takeClass p rest).2) := by
  induction xs with
  | nil => simp
  | cons c cs ih =>
    have hc : p c = true := h c (List.mem_cons_self c cs)
    have ih' := ih (fun x hx => h x (List.mem_cons_of_mem c hx))
    simp only [List.cons_append, takeClass, hc, if_true, List.append_eq, ih']

theorem takeClass_exact {p : Char → Bool} {xs rest : List Char}
    (hxs : ∀ c ∈ xs, p c = true) (hrest : headNot p rest) :
    takeClass p (xs ++ rest) = (xs, rest) := by
  rw [takeClass_all_append hxs]
  cases rest with
  | nil => simp [takeClass]
  | cons c cs =>
    have hc : p c = false := hrest
    rw [takeClass_cons_neg hc]
    simp

theorem headNot_cons {p : Char → Bool} {c : Char} {r : List Char}
    (h : p c = false) : headNot p (c :: r) := h

theorem headNot_append_left {p : Char → Bool} {l : List Char}
    (hl : l ≠ []) (h : ∀ c ∈ l, p c = false) (r : List Char) :
    headNot p (l ++ r) := by
  cases l with
  | nil => exact absurd rfl hl
  | cons c cs => exact h c (List.mem_cons_self c cs)

theorem headNot_ws_cons {p : Char → Bool} {ws : List Char} {c : Char}
    (hws : ∀ x ∈ ws, p x = false) (hc : p c = false) (r : List Char) :
    headNot p (ws ++ c :: r) := by
  cases ws with
  | nil => exact hc
  | cons w rest => exact hws w (List.mem_cons_self w rest)

theorem isPySpace_not_digitOrComma {c : Char} (h : isPySpace c = true) :
    isDigitOrComma c = false := by
  simp only [isPySpace, Bool.or_eq_true, decide_eq_true_eq] at h
  rcases h with ((((h | h) | h) | h) | h) | h <;> subst h <;> decide

theorem isDigitOrComma_not_space {c : Char} (h : isDigitOrComma c = true) :
    isPySpace c = false := by
  cases hsp : isPySpace c with
  | false => rfl
  | true => rw [isPySpace_not_digitOrComma hsp] at h; exact absurd h (by simp)

theorem isDigit_digitOrComma {c : Char} (h : c.isDigit = true) :
    isDigitOrComma c = true := by
  simp [isDigitOrComma, h]

theorem isDigit_not_space {c : Char} (h : c.isDigit = true) :
    isPySpace c = false :=
  isDigitOrComma_not_space (isDigit_digitOrComma h)

theorem isDigit_ne_comma {c : Char} (h : c.isDigit = true) : c ≠ ',' := by
  intro e; subst e; exact absurd h (by decide)

/-- A successful anchored match of the amount pattern on input of the
shape `₹ ws1 amt ws2 @ ws3 pint[.pfrac]% suffix`. -/
theorem matchAmountAt_spec
    (ws1 amt ws2 ws3 pint : List Char) (pfrac : Option (List Char))
    (suffix : List Char)
    (hws1 : ∀ c ∈ ws1, isPySpace c = true)
    (hws2 : ∀ c ∈ ws2, isPySpace c = true)
    (hws3 : ∀ c ∈ ws3, isPySpace c = true)
    (hamtne : amt ≠ [])
    (hamt : ∀ c ∈ amt, isDigitOrComma c = true)
    (hpintne : pint ≠ [])
    (hpint : ∀ c ∈ pint, c.isDigit = true)
    (hpfrac : ∀ f, pfrac = some f → f ≠ [] ∧ ∀ c ∈ f, c.isDigit = true) :
    matchAmountAt
        ('₹' :: (ws1 ++ (amt ++ (ws2 ++ ('@' :: (ws3 ++ (pint ++
          (fracPart pfrac ++ ('%' :: suffix)))))))))
      = some ⟨amt, pint, pfrac⟩ := by
  have t1 : takeClass isPySpace
      (ws1 ++ (amt ++ (ws2 ++ '@' :: (ws3 ++ (pint ++ (fracPart pfrac ++ '%' :: suffix))))))
      = (ws1, amt ++ (ws2 ++ '@' :: (ws3 ++ (pint ++ (fracPart pfrac ++ '%' :: suffix))))) :=
    takeClass_exact hws1
      (headNot_append_left hamtne
        (fun c hc => isDigitOrComma_not_space (hamt c hc)) _)
  have t2 : takeClass isDigitOrComma
      (amt ++ (ws2 ++ '@' :: (ws3 ++ (pint ++ (fracPart pfrac ++ '%' :: suffix)))))
      = (amt, ws2 ++ '@' :: (ws3 ++ (pint ++ (fracPart pfrac ++ '%' :: suffix)))) :=
    takeClass_exact hamt
      (headNot_ws_cons
        (fun x hx => isPySpace_not_digitOrComma (hws2 x hx)) (by decide) _)
  have t3 : takeClass isPySpace
      (ws2 ++ '@' :: (ws3 ++ (pint ++ (fracPart pfrac ++ '%' :: suffix))))
      = (ws2, '@' :: (ws3 ++ (pint ++ (fracPart pfrac ++ '%' :: suffix)))) :=
    takeClass_exact hws2 (headNot_cons (by decide))
  have t4 : takeClass isPySpace
      (ws3 ++ (pint ++ (fracPart pfrac ++ '%' :: suffix)))
      = (ws3, pint ++ (fracPart pfrac ++ '%' :: suffix)) :=
    takeClass_exact hws3
      (headNot_append_left hpintne
        (fun c hc => isDigit_not_space (hpint c hc)) _)
  have hfrac : headNot Char.isDigit (fracPart pfrac ++ '%' :: suffix) := by
    cases pfrac with
    | none => exact headNot_cons (by decide)
    | some f => exact headNot_cons (by decide)
  have t5 : takeClass Char.isDigit
      (pint ++ (fracPart pfrac ++ '%' :: suffix))
      = (pint, fracPart pfrac ++ '%' :: suffix) :=
    takeClass_exact hpint hfrac
  cases pfrac with
  | none =>
    simp only [fracPart, List.nil_append, List.cons_append,
      List.append_assoc] at t1 t2 t3 t4 t5 ⊢
    simp [matchAmountAt, t1, t2, t3, t4, t5, hamtne, hpintne]
  | some f =>
    obtain ⟨hfne, hfd⟩ := hpfrac f rfl
    have t6 : takeClass Char.isDigit (f ++ '%' :: suffix) = (f, '%' :: suffix) :=
      takeClass_exact hfd (headNot_cons (by decide))
    simp only [fracPart, List.nil_append, List.cons_append,
      List.append_assoc] at t1 t2 t3 t4 t5 t6 ⊢
    simp [matchAmountAt, t1, t2, t3, t4, t5, t6, hamtne, hpintne, hfne]

/-- `re.search` succeeds immediately when the anchored match succeeds at
position zero. -/
theorem searchAmount_of_matchAt {c : Char} {cs : List Char} {m : RawMatch}
    (h : matchAmountAt (c :: cs) = some m) :
    searchAmount (c :: cs) = some m := by
  simp [searchAmount, h]

/-- Scanning skips any prefix that contains no `₹` (every candidate
position inside it fails on the first pattern character). -/
theorem searchAmount_skip {pre : List Char} (rest : List Char)
    (h : '₹' ∉ pre) :
    searchAmount (pre ++ rest) = searchAmount rest := by
  induction pre with
  | nil => rfl
  | cons c cs ih =>
    have hc : ¬(c = '₹') := fun e => h (e ▸ List.mem_cons_self c cs)
    have hmem : '₹' ∉ cs := fun hm => h (List.mem_cons_of_mem c hm)
    have hma : matchAmountAt (c :: (cs ++ rest)) = none := by
      simp [matchAmountAt, hc]
    calc searchAmount ((c :: cs) ++ rest)
        = searchAmount (cs ++ rest) := by
          simp only [List.cons_append, searchAmount, List.append_eq, hma]
      _ = searchAmount rest := ih hmem

theorem mk_data (l : List Char) : (String.mk l).data = l := rfl

/-! ## ISO-8601 well-formedness of `isoformat` -/

theorem digitChar_isDigit (n : Nat) : (digitChar n).isDigit = true := by
  have hb : ∀ m, m < 10 → (Char.ofNat (48 + m)).isDigit = true := by decide
  exact hb (n % 10) (Nat.mod_lt _ (by norm_num))

theorem isValidISO8601_isoformat (t : UTCTime) :
    isValidISO8601 (isoformat t) = true := by
  by_cases hm : t.microsecond = 0 <;>
    simp [isValidISO8601, isoformat, hm, checkDigits, expectChar,
      pad2, pad4, pad6, digitChar_isDigit]

/-! ## Claim theorems -/

/-- C1: alert classification in `monitor_loop` is a pure function of
`(entry, current)`: with `change% = (current - entry) / entry * 100`,
`change% ≥ 3.0` yields an "up" alert, `change% ≤ -2.0` a "down" alert,
and `-2.0 < change% < 3.0` no alert; both thresholds are inclusive.
(`entry ≠ 0` excludes the input on which Python would raise
`ZeroDivisionError` before classifying.) -/
theorem alert_classification_thresholds (entry current : ℚ)
    (hentry : entry ≠ 0) :
    (changePct entry current ≥ 3 → classifyChange entry current = some .up) ∧
    (changePct entry current ≤ -2 → classifyChange entry current = some .down) ∧
    (-2 < changePct entry current → changePct entry current < 3 →
      classifyChange entry current = none) := by
  have h3 : UP_THRESHOLD = 3 := by norm_num [UP_THRESHOLD]
  have h2 : DOWN_THRESHOLD = -2 := by norm_num [DOWN_THRESHOLD]
  refine ⟨fun h => ?_, fun h => ?_, fun hl hu => ?_⟩
  · rw [classifyChange, h3, if_pos h]
  · have hnot : ¬(changePct entry current ≥ UP_THRESHOLD) := by
      rw [h3]; linarith
    rw [classifyChange, if_neg hnot, h2, if_pos h]
  · have hnot : ¬(changePct entry current ≥ UP_THRESHOLD) := by
      rw [h3]; linarith
    have hnot2 : ¬(changePct entry current ≤ DOWN_THRESHOLD) := by
      rw [h2]; linarith
    rw [classifyChange, if_neg hnot, if_neg hnot2]

/-- Witness for C1: entry 100 with current 103 (change exactly 3.0%) is
an "up" alert, with current 98 (change exactly -2.0%) a "down" alert,
and with current 101 no alert. -/
theorem alert_classification_thresholds_witness :
    classifyChange 100 103 = some .up ∧
    classifyChange 100 98 = some .down ∧
    classifyChange 100 101 = none := by
  have hup := (alert_classification_thresholds 100 103 (by norm_num)).1
  have hdn := (alert_classification_thresholds 100 98 (by norm_num)).2.1
  have hno := (alert_classification_thresholds 100 101 (by norm_num)).2.2
  refine ⟨hup ?_, hdn ?_, hno ?_ ?_⟩ <;> norm_num [changePct]

/-- C2: every input of the valid shape `₹<amount> @ <percent>%` — the
amount digits with optional comma separators, the percent a decimal
number, arbitrary whitespace around the `@`, arbitrary trailing text —
parses to exactly the numeric amount with separators removed and the
numeric percent. -/
theorem parse_input_valid_format
    (ws1 amt ws2 ws3 pint : List Char) (pfrac : Option (List Char))
    (suffix : List Char)
    (hws1 : ∀ c ∈ ws1, isPySpace c = true)
    (hws2 : ∀ c ∈ ws2, isPySpace c = true)
    (hws3 : ∀ c ∈ ws3, isPySpace c = true)
    (hamtne : amt ≠ [])
    (hamt : ∀ c ∈ amt, isDigitOrComma c = true)
    (hdig : ∃ c ∈ amt, c.isDigit = true)
    (hpintne : pint ≠ [])
    (hpint : ∀ c ∈ pint, c.isDigit = true)
    (hpfrac : ∀ f, pfrac = some f → f ≠ [] ∧ ∀ c ∈ f, c.isDigit = true) :
    parse_input (String.mk
        ('₹' :: (ws1 ++ (amt ++ (ws2 ++ ('@' :: (ws3 ++ (pint ++
          (fracPart pfrac ++ ('%' :: suffix))))))))))
      = .ok (natOfDigits (amt.filter (fun c => c ≠ ',')))
          (pctValue pint pfrac) := by
  have hmm := matchAmountAt_spec ws1 amt ws2 ws3 pint pfrac suffix
    hws1 hws2 hws3 hamtne hamt hpintne hpint hpfrac
  have hs : searchAmount
      ('₹' :: (ws1 ++ (amt ++ (ws2 ++ ('@' :: (ws3 ++ (pint ++
        (fracPart pfrac ++ ('%' :: suffix)))))))))
      = some ⟨amt, pint, pfrac⟩ := searchAmount_of_matchAt hmm
  have hne : amt.filter (fun c => c ≠ ',') ≠ [] := by
    obtain ⟨c, hc, hcd⟩ := hdig
    refine List.ne_nil_of_mem (List.mem_filter.2 ⟨hc, ?_⟩)
    simp only [decide_eq_true_eq]
    exact isDigit_ne_comma hcd
  unfold parse_input
  rw [mk_data, hs]
  exact if_neg hne

/-- Witness for C2: `"₹20,000 @ 3.5%"` parses to amount `20000` and
percent `3.5` (= 7/2). -/
theorem parse_input_valid_format_witness :
    parse_input "₹20,000 @ 3.5%"
      = .ok 20000 (pctValue ['3'] (some ['5'])) ∧
    pctValue ['3'] (some ['5']) = 7 / 2 := by
  constructor
  · have h := parse_input_valid_format [] ['2', '0', ',', '0', '0', '0']
      [' '] [' '] ['3'] (some ['5']) []
      (by decide) (by decide) (by decide) (by decide) (by decide)
      (by decide) (by decide) (by decide)
      (fun f hf => by
        injection hf with hh
        subst hh
        exact ⟨by decide, by decide⟩)
    exact h
  · have h3 : natOfDigits ['3'] = 3 := rfl
    have h5 : natOfDigits ['5'] = 5 := rfl
    norm_num [pctValue, h3, h5]

/-- C9: the pattern is searched for anywhere in the message, not matched
against the whole message: any text before the first `₹` and any text
after the `%` are ignored, and parsing succeeds on the embedded
occurrence. -/
theorem parse_input_searches_anywhere
    (pre ws1 amt ws2 ws3 pint : List Char) (pfrac : Option (List Char))
    (suffix : List Char)
    (hpre : '₹' ∉ pre)
    (hws1 : ∀ c ∈ ws1, isPySpace c = true)
    (hws2 : ∀ c ∈ ws2, isPySpace c = true)
    (hws3 : ∀ c ∈ ws3, isPySpace c = true)
    (hamtne : amt ≠ [])
    (hamt : ∀ c ∈ amt, isDigitOrComma c = true)
    (hdig : ∃ c ∈ amt, c.isDigit = true)
    (hpintne : pint ≠ [])
    (hpint : ∀ c ∈ pint, c.isDigit = true)
    (hpfrac : ∀ f, pfrac = some f → f ≠ [] ∧ ∀ c ∈ f, c.isDigit = true) :
    parse_input (String.mk
        (pre ++ ('₹' :: (ws1 ++ (amt ++ (ws2 ++ ('@' :: (ws3 ++ (pint ++
          (fracPart pfrac ++ ('%' :: suffix)))))))))))
      = .ok (natOfDigits (amt.filter (fun c => c ≠ ',')))
          (pctValue pint pfrac) := by
  have hmm := matchAmountAt_spec ws1 amt ws2 ws3 pint pfrac suffix
    hws1 hws2 hws3 hamtne hamt hpintne hpint hpfrac
  have hs : searchAmount
      (pre ++ ('₹' :: (ws1 ++ (amt ++ (ws2 ++ ('@' :: (ws3 ++ (pint ++
        (fracPart pfrac ++ ('%' :: suffix))))))))))
      = some ⟨amt, pint, pfrac⟩ := by
    rw [searchAmount_skip _ hpre]
    exact searchAmount_of_matchAt hmm
  have hne : amt.filter (fun c => c ≠ ',') ≠ [] := by
    obtain ⟨c, hc, hcd⟩ := hdig
    refine List.ne_nil_of_mem (List.mem_filter.2 ⟨hc, ?_⟩)
    simp only [decide_eq_true_eq]
    exact isDigit_ne_comma hcd
  unfold parse_input
  rw [mk_data, hs]
  exact if_neg hne

/-- Witness for C9: `"buy ₹5,000 @ 2% now"` parses to amount `5000` and
percent `2` although the pattern is surrounded by other text. -/
theorem parse_input_searches_anywhere_witness :
    parse_input "buy ₹5,000 @ 2% now"
      = .ok 5000 (pctValue ['2'] none) ∧
    pctValue ['2'] none = 2 := by
  constructor
  · have h := parse_input_searches_anywhere ['b', 'u', 'y', ' ']
      [] ['5', ',', '0', '0', '0'] [' '] [' '] ['2'] none
      [' ', 'n', 'o', 'w']
      (by decide) (by decide) (by decide) (by decide) (by decide)
      (by decide) (by decide) (by decide) (by decide)
      (fun f hf => by exact absurd hf (by simp))
    exact h
  · have h2 : natOfDigits ['2'] = 2 := rfl
    norm_num [pctValue, h2]

/-- C10 counterexample: on `"₹, @ 1%"` the pattern matches with amount
group `","`; stripping commas leaves the empty string and `int("")`
raises `ValueError`, so `parse_input` neither returns `(None, None)` nor
a numeric pair. -/
theorem parse_input_comma_only_raises :
    parse_input "₹, @ 1%" = ParseOut.error := by decide

/-- C10 (amended): `parse_input` returns `(None, None)`, raises (which
happens exactly when the matched amount group consists of commas only),
or returns a numeric pair whose amount is a nonnegative integer (commas
stripped) and whose percent is nonnegative; a negative number is never
produced. -/
theorem parse_input_result_shape (text : String) :
    parse_input text = .noMatch ∨ parse_input text = .error ∨
    ∃ (a : Nat) (p : ℚ), parse_input text = .ok a p ∧ 0 ≤ p := by
  unfold parse_input
  cases searchAmount text.data with
  | none => exact .inl rfl
  | some m =>
    by_cases hd : m.amountGroup.filter (fun c => c ≠ ',') = []
    · exact .inr (.inl (if_pos hd))
    · refine .inr (.inr ⟨natOfDigits (m.amountGroup.filter (fun c => c ≠ ',')),
        pctValue m.pctInt m.pctFrac, if_neg hd, ?_⟩)
      unfold pctValue
      have h1 : (0 : ℚ) ≤ (natOfDigits m.pctInt : ℚ) := Nat.cast_nonneg _
      cases hf : m.pctFrac with
      | none => simpa using h1
      | some f =>
        have h2 : (0 : ℚ) ≤ (natOfDigits f : ℚ) / (10 : ℚ) ^ f.length :=
          div_nonneg (Nat.cast_nonneg _) (pow_nonneg (by norm_num) _)
        simpa using add_nonneg h1 h2

/-- C8: an input in which the pattern occurs nowhere (also not after
stripping) makes `parse_input` return `(None, None)`, and
`handle_message` — when the text is not an `I buy` line — replies with
the parse-error message rather than any numeric acknowledgement. -/
theorem no_match_parse_error_reply (t : String)
    (h : searchAmount t.data = none)
    (hs : searchAmount (pyStrip t.data) = none)
    (hb : isBuyText (pyStrip t.data) = false) :
    parse_input t = .noMatch ∧
    handle_message_reply t = .ok (some .parseErrorReply) := by
  constructor
  · simp [parse_input, h]
  · simp [handle_message_reply, hb, parse_input, mk_data, hs]

/-- Witness for C8: `"hello"` (and the malformed `"₹abc @ 3%"` follows
the same path) produces the parse-error reply. -/
theorem no_match_parse_error_reply_witness :
    parse_input "hello" = .noMatch ∧
    handle_message_reply "hello" = .ok (some .parseErrorReply) :=
  no_match_parse_error_reply "hello" (by decide) (by decide) (by decide)

/-- C3 counterexample: with the positions file present but undecodable,
`load_positions` raises (`json.load` is unguarded) instead of returning
the empty sequence. -/
theorem load_malformed_raises :
    load_positions (some FileContent.malformed) = Except.error () := rfl

/-- C3 (amended): `load()` returns the empty sequence when the file is
absent and the stored list when it decodes, but a parse failure
propagates as an exception to the caller rather than yielding `[]`. -/
theorem load_positions_amended :
    load_positions none = Except.ok ([] : List Position) ∧
    (∀ ps : List Position,
      load_positions (some (.wellFormed ps)) = Except.ok ps) ∧
    load_positions (some FileContent.malformed) = Except.error () :=
  ⟨rfl, fun _ => rfl, rfl⟩

/-- C4: on any store state whose load succeeds (file absent or
well-formed, the documented store invariant), `add(symbol, price)`
followed by `load()` yields the previous sequence with exactly one new
record appended at the end, carrying the given symbol and price and a
well-formed ISO-8601 UTC timestamp; prior entries and their order are
untouched. -/
theorem add_then_load (symbol : String) (price : ℚ) (now : UTCTime)
    (s : Option FileContent) (ps : List Position)
    (hload : load_positions s = .ok ps) (hvalid : now.Valid) :
    ∃ s', add_position symbol price now s = .ok s' ∧
      load_positions s' =
        .ok (ps ++ [{ symbol := symbol, entry_price := price,
                      timestamp := isoformat now }]) ∧
      isValidISO8601 (isoformat now) = true := by
  have hlp : load_positions (save_positions
      (ps ++ [{ symbol := symbol, entry_price := price,
                timestamp := isoformat now }]))
      = .ok (ps ++ [{ symbol := symbol, entry_price := price,
                      timestamp := isoformat now }]) := rfl
  refine ⟨_, ?_, hlp, isValidISO8601_isoformat now⟩
  unfold add_position
  rw [hload]

/-- Witness for C4: adding `TCS` at price 100 to the empty store and
loading yields exactly the one matching record with a well-formed
timestamp. -/
theorem add_then_load_witness :
    ∃ s', add_position "TCS" 100 ⟨2026, 10, 12, 3, 4, 5, 0⟩ none = .ok s' ∧
      load_positions s' =
        .ok ([] ++ [{ symbol := "TCS", entry_price := 100,
                      timestamp := isoformat ⟨2026, 10, 12, 3, 4, 5, 0⟩ }]) ∧
      isValidISO8601 (isoformat ⟨2026, 10, 12, 3, 4, 5, 0⟩) = true :=
  add_then_load "TCS" 100 ⟨2026, 10, 12, 3, 4, 5, 0⟩ none [] rfl
    (by norm_num [UTCTime.Valid])

/-- C5 counterexample: from an idle state, issuing the monitoring start
command twice launches two `monitor_loop` tasks
(`asyncio.create_task` in `start_monitor` is unconditional), not one. -/
theorem start_twice_launches_two_loops :
    (start_monitor "7" (start_monitor "7"
        ⟨none, false, none, 0⟩)).activeLoops = 2 ∧
    (start_monitor "7" (start_monitor "7"
        ⟨none, false, none, 0⟩)).activeLoops ≠ 1 :=
  ⟨rfl, by decide⟩

/-- C5 (amended): issuing the monitoring start command twice in a row
leaves the position list cleared and the marker present, but each start
launches a fresh Alert Loop task unconditionally, so two starts leave
two active loops. -/
theorem start_twice_amended (chat : String) (s : MonitorState) :
    (start_monitor chat (start_monitor chat s)).store
        = some (.wellFormed []) ∧
    (start_monitor chat (start_monitor chat s)).markerPresent = true ∧
    (start_monitor chat (start_monitor chat s)).activeLoops
        = s.activeLoops + 2 :=
  ⟨rfl, rfl, rfl⟩

/-- C7: the stop command removes only the active-flag marker — the
recipient identifier and the Position Store survive unchanged — and
stopping when the marker is already absent is an error-free no-op. -/
theorem stop_monitor_frame (s : MonitorState) :
    stop_monitor s = { s with markerPresent := false } ∧
    (s.markerPresent = false → stop_monitor s = s) := by
  obtain ⟨cid, mk, st, al⟩ := s
  cases mk <;> simp [stop_monitor]

/-- Witness for C7: stopping while not running returns the state
untouched. -/
theorem stop_monitor_frame_witness :
    stop_monitor ⟨some "42", false, none, 3⟩ = ⟨some "42", false, none, 3⟩ :=
  (stop_monitor_frame ⟨some "42", false, none, 3⟩).2 rfl
/-! ## Lemmas about the advice-flow formatting -/

theorem headD_reverse (l : List Char) (d : Char) :
    l.reverse.headD d = l.getLastD d := by
  rcases l.eq_nil_or_concat with rfl | ⟨as, a, rfl⟩
  · rfl
  · simp [List.concat_eq_append, List.reverse_append, List.getLastD_concat]

theorem dropWhile_id_headD {p : Char → Bool} {l : List Char}
    (h : p (l.headD 'x') = false) : l.dropWhile p = l := by
  cases l with
  | nil => rfl
  | cons a as =>
    rw [List.headD_cons] at h
    simp [List.dropWhile_cons, h]

theorem pyStrip_eq_self {l : List Char}
    (hh : isPySpace (l.headD 'x') = false)
    (hl : isPySpace (l.getLastD 'x') = false) :
    pyStrip l = l := by
  unfold pyStrip
  rw [dropWhile_id_headD hh]
  rw [dropWhile_id_headD (by rwa [headD_reverse]), List.reverse_reverse]

theorem takeWhile_all_append {p : Char → Bool} {xs : List Char}
    (h : ∀ c ∈ xs, p c = true) (rest : List Char) :
    (xs ++ rest).takeWhile p = xs ++ rest.takeWhile p := by
  induction xs with
  | nil => simp
  | cons c cs ih =>
    have hc : p c = true := h c (List.mem_cons_self c cs)
    have ih' := ih (fun x hx => h x (List.mem_cons_of_mem c hx))
    simp [List.takeWhile_cons, hc, ih']

theorem cleanChar_not_break {c : Char} (h : CleanChar c = true) :
    isLineBreak c = false := by
  cases hb : isLineBreak c with
  | false => rfl
  | true =>
    exfalso
    simp only [isLineBreak, Bool.or_eq_true, decide_eq_true_eq] at hb
    rcases hb with (((((((((hb | hb) | hb) | hb) | hb) | hb) | hb) | hb) |
      hb) | hb) <;> subst hb <;> exact absurd h (by decide)

theorem not_cr_of_not_break {c : Char} (h : isLineBreak c = false) :
    ¬(c = '\r') := by
  intro e
  rw [e] at h
  exact absurd h (by decide)

theorem pySplitlines_append_newline {l : List Char}
    (h : ∀ c ∈ l, isLineBreak c = false) (r : List Char) :
    pySplitlines (l ++ '\n' :: r) = l :: pySplitlines r := by
  induction l with
  | nil =>
    have h2 : isLineBreak '\n' = true := by decide
    rw [List.nil_append, pySplitlines.eq_def]
    simp [h2]
  | cons c l' ih =>
    have hc : isLineBreak c = false := h c (List.mem_cons_self _ _)
    have hcr := not_cr_of_not_break hc
    have ih' := ih (fun x hx => h x (List.mem_cons_of_mem _ hx))
    rw [List.cons_append, pySplitlines.eq_def]
    simp [hcr, hc, ih']

theorem pySplitlines_no_break {l : List Char} (hne : l ≠ [])
    (h : ∀ c ∈ l, isLineBreak c = false) :
    pySplitlines l = [l] := by
  induction l with
  | nil => exact absurd rfl hne
  | cons c l' ih =>
    have hc : isLineBreak c = false := h c (List.mem_cons_self _ _)
    have hcr := not_cr_of_not_break hc
    have hnil : pySplitlines [] = [] := rfl
    by_cases hl' : l' = []
    · subst hl'
      rw [pySplitlines.eq_def]
      simp [hcr, hc, hnil]
    · have ih' := ih hl' (fun x hx => h x (List.mem_cons_of_mem _ hx))
      rw [pySplitlines.eq_def]
      simp [hcr, hc, ih']

theorem pySplitlines_joinWith {ls : List (List Char)} (hne : ls ≠ [])
    (h : ∀ l ∈ ls, l ≠ [] ∧ ∀ c ∈ l, isLineBreak c = false) :
    pySplitlines (joinWith ['\n'] ls) = ls := by
  induction ls with
  | nil => exact absurd rfl hne
  | cons l rest ih =>
    cases rest with
    | nil =>
      exact pySplitlines_no_break (h l (List.mem_cons_self l [])).1
        (h l (List.mem_cons_self l [])).2
    | cons l2 rest2 =>
      rw [show joinWith ['\n'] (l :: l2 :: rest2)
          = l ++ ('\n' :: joinWith ['\n'] (l2 :: rest2)) from rfl]
      rw [pySplitlines_append_newline (h l (List.mem_cons_self _ _)).2]
      rw [ih (by simp) (fun x hx => h x (List.mem_cons_of_mem _ hx))]

theorem firstField_dashLine {sr : List Char × List Char}
    (hclean : CleanItem sr) : firstField (dashLine sr) = pyStrip sr.1 := by
  obtain ⟨h1ne, h1, hh1, h2ne, h2, hl2⟩ := hclean
  unfold firstField dashLine
  have hall : ∀ c ∈ sr.1, (fun c => decide (c ≠ '–')) c = true := by
    intro c hc
    simp only [decide_eq_true_eq]
    exact (h1 c hc).2
  rw [takeWhile_all_append hall]
  have htail : ('–' :: sr.2).takeWhile (fun c => decide (c ≠ '–')) = [] := by
    simp [List.takeWhile_cons]
  rw [htail, List.append_nil]

theorem dashLine_ne_nil (sr : List Char × List Char) : dashLine sr ≠ [] := by
  unfold dashLine
  simp

theorem dashLine_no_break {sr : List Char × List Char}
    (hclean : CleanItem sr) : ∀ c ∈ dashLine sr, isLineBreak c = false := by
  obtain ⟨h1ne, h1, hh1, h2ne, h2, hl2⟩ := hclean
  intro c hc
  unfold dashLine at hc
  rcases List.mem_append.1 hc with hm | hm
  · exact cleanChar_not_break (h1 _ hm).1
  · rcases List.mem_cons.1 hm with rfl | hm
    · decide
    · exact cleanChar_not_break (h2 _ hm)

theorem pyStrip_dashLine {sr : List Char × List Char}
    (hclean : CleanItem sr) : pyStrip (dashLine sr) = dashLine sr := by
  obtain ⟨h1ne, h1, hh1, h2ne, h2, hl2⟩ := hclean
  refine pyStrip_eq_self ?_ ?_
  · have hhd : (dashLine sr).headD 'x' = sr.1.headD 'x' := by
      unfold dashLine
      cases hc : sr.1 with
      | nil => exact absurd hc h1ne
      | cons a as => simp
    rw [hhd]
    exact hh1
  · have hlast : (dashLine sr).getLastD 'x' = sr.2.getLastD 'x' := by
      unfold dashLine
      rcases sr.2.eq_nil_or_concat with hn | ⟨as, a, hcat⟩
      · exact absurd hn h2ne
      · rw [hcat, List.concat_eq_append]
        rw [show sr.1 ++ '–' :: (as ++ [a])
            = (sr.1 ++ '–' :: as) ++ [a] by simp]
        rw [List.getLastD_concat, List.getLastD_concat]
    rw [hlast]
    exact hl2

theorem adviceLines_joinWith (items : List (List Char × List Char))
    (hne : items ≠ []) (hclean : ∀ sr ∈ items, CleanItem sr) :
    adviceLines (String.mk (joinWith ['\n'] (items.map dashLine)))
      = items.map dashLine := by
  unfold adviceLines
  rw [mk_data]
  have hmapne : items.map dashLine ≠ [] := by simp [hne]
  have hok : ∀ l ∈ items.map dashLine,
      l ≠ [] ∧ ∀ c ∈ l, isLineBreak c = false := by
    intro l hl
    obtain ⟨sr, hsr, rfl⟩ := List.mem_map.1 hl
    exact ⟨dashLine_ne_nil sr, dashLine_no_break (hclean sr hsr)⟩
  rw [pySplitlines_joinWith hmapne hok]
  have hmapstrip : List.map pyStrip (List.map dashLine items)
      = List.map id (List.map dashLine items) :=
    List.map_congr_left (fun l hl => by
      obtain ⟨sr, hsr, rfl⟩ := List.mem_map.1 hl
      exact pyStrip_dashLine (hclean sr hsr))
  rw [hmapstrip, List.map_id]
  refine List.filter_eq_self.2 ?_
  intro l hl
  obtain ⟨sr, hsr, rfl⟩ := List.mem_map.1 hl
  simp [dashLine_ne_nil]

/-- C6 counterexample: on ASCII-hyphen-separated lines the code does not
split at the hyphen (it splits on the en dash U+2013), so the extracted
top pick is the whole first line, not the text before the first
hyphen. -/
theorem top_pick_hyphen_not_split :
    top_pick "TCS - buy\nINFY - hold" = some "TCS - buy" ∧
    ("TCS - buy" : String) ≠ "TCS" := by
  constructor
  · decide
  · decide

/-- C6 (amended): when the Stage-1 response consists of en-dash
(U+2013)-separated lines, the extracted top pick equals the stripped
text before the first en dash of the first non-empty line, the extracted
symbol list takes the stripped text before the first en dash of every
line, and the numbered listing sent to the user preserves the original
line order.  A line is any nonempty boundary-free decomposition
`before ++ "–" ++ after` admitted by `CleanItem` (spaces are allowed
inside and around the fields, further en dashes are allowed after the
first). -/
theorem advice_flow_en_dash (items : List (List Char × List Char))
    (hne : items ≠ []) (hclean : ∀ sr ∈ items, CleanItem sr) :
    top_pick (String.mk (joinWith ['\n'] (items.map dashLine)))
      = some (String.mk (pyStrip (items.headD ([], [])).1)) ∧
    advice_symbols (String.mk (joinWith ['\n'] (items.map dashLine)))
      = String.mk (joinWith [',', ' '] (items.map (fun sr => pyStrip sr.1))) ∧
    numbered_listing (String.mk (joinWith ['\n'] (items.map dashLine)))
      = String.mk (joinWith ['\n'] ((items.enum).map
          (fun p => toDigitsList (p.1 + 1) ++ '.' :: ' ' :: dashLine p.2))) := by
  have hlines := adviceLines_joinWith items hne hclean
  refine ⟨?_, ?_, ?_⟩
  · unfold top_pick
    rw [hlines]
    cases items with
    | nil => exact absurd rfl hne
    | cons sr rest =>
      have hf := firstField_dashLine (hclean sr (List.mem_cons_self sr rest))
      simp [hf]
  · unfold advice_symbols
    rw [hlines, List.map_map]
    congr 1
    congr 1
    exact List.map_congr_left
      (fun sr hsr => firstField_dashLine (hclean sr hsr))
  · unfold numbered_listing
    rw [hlines, List.enum_map, List.map_map]
    rfl

/-- Witness for C6 (amended): five en-dash-separated lines — including a
symbol with an inner space (`TATA MOTORS`) and a rationale with a second
en dash — produce the first stripped symbol as top pick, the comma-joined
symbol list, and the numbered listing in the original order. -/
theorem advice_flow_en_dash_witness :
    top_pick "TCS – good – cheap\nTATA MOTORS – ok\nSBIN – fine\nWIPRO – solid\nHCL – strong"
      = some "TCS" ∧
    advice_symbols
        "TCS – good – cheap\nTATA MOTORS – ok\nSBIN – fine\nWIPRO – solid\nHCL – strong"
      = "TCS, TATA MOTORS, SBIN, WIPRO, HCL" ∧
    numbered_listing
        "TCS – good – cheap\nTATA MOTORS – ok\nSBIN – fine\nWIPRO – solid\nHCL – strong"
      = "1. TCS – good – cheap\n2. TATA MOTORS – ok\n3. SBIN – fine\n4. WIPRO – solid\n5. HCL – strong" := by
  have h := advice_flow_en_dash
    [(['T', 'C', 'S', ' '],
      [' ', 'g', 'o', 'o', 'd', ' ', '–', ' ', 'c', 'h', 'e', 'a', 'p']),
     (['T', 'A', 'T', 'A', ' ', 'M', 'O', 'T', 'O', 'R', 'S', ' '],
      [' ', 'o', 'k']),
     (['S', 'B', 'I', 'N', ' '], [' ', 'f', 'i', 'n', 'e']),
     (['W', 'I', 'P', 'R', 'O', ' '], [' ', 's', 'o', 'l', 'i', 'd']),
     (['H', 'C', 'L', ' '], [' ', 's', 't', 'r', 'o', 'n', 'g'])]
    (by decide) (by decide)
  exact ⟨h.1, h.2.1, h.2.2⟩
